import Mathlib

/-!
Verification of the orchestration-refinement control loop of `grug.py`.

The development shallowly embeds the program's pure control flow in Lean.
External collaborators (the Groq completion service, the Tavily search
service, Python's `json.loads`, the code-block regular expression) are
modelled as oracles/parameters, exactly as the specification scopes them
out; every piece of control flow, parsing and file-tree manipulation that
the repository itself implements is translated function by function.

Python strings are modelled as Lean `String` (operating on their `List
Char` data); `str.strip`, `in`, `str.split(':')[-1]`, `str.replace`,
slicing and `int(...)` are each given a faithful executable model below.
-/

namespace Grug

/-- Python whitespace as far as `str.strip()` is concerned (ASCII part):
space, tab, newline, carriage return, vertical tab, form feed. -/
def pyIsSpace (c : Char) : Bool :=
  c == ' ' || c == '\t' || c == '\n' || c == '\r' || c == '\x0b' || c == '\x0c'

/-- `l` with leading and trailing whitespace removed (model of `str.strip()`
on the character list). -/
def stripList (l : List Char) : List Char :=
  ((l.dropWhile pyIsSpace).reverse.dropWhile pyIsSpace).reverse

/-- Model of Python `str.strip()`. -/
def pyStrip (s : String) : String :=
  ⟨stripList s.data⟩

/-- Is `needle` a contiguous sublist of `hay`? (model of Python `in` on
character lists). -/
def isSub (needle : List Char) : List Char → Bool
  | [] => needle.isEmpty
  | c :: t => needle.isPrefixOf (c :: t) || isSub needle t

/-- Model of Python `needle in hay` for strings. -/
def pyIn (needle hay : String) : Bool :=
  isSub needle.data hay.data

/-- Model of Python `startswith`: used only to state the specification's
"opens with the literal marker" wording, for comparison with the source's
actual containment test. -/
def pyStartsWith (s pre : String) : Bool :=
  pre.data.isPrefixOf s.data

/-- Characters after the last `':'` (the whole list when there is no
colon): model of `s.split(':')[-1]` on character lists. -/
def afterLastList (l : List Char) : List Char :=
  (l.reverse.takeWhile (fun c => !(c == ':'))).reverse

/-- Model of Python `s.split(':')[-1]`. -/
def afterLastColon (s : String) : String :=
  ⟨afterLastList s.data⟩

/-- No two adjacent underscores in the list. -/
def noDoubleUnderscore : List Char → Bool
  | c :: d :: rest => !(c == '_' && d == '_') && noDoubleUnderscore (d :: rest)
  | _ => true

/-- The digit body accepted by Python `int(...)` after the optional sign:
nonempty, first and last characters are ASCII digits, every character is a
digit or `'_'`, and underscores are single (hence strictly between
digits). -/
def pyDigitsOk (l : List Char) : Bool :=
  (match l with | [] => false | c :: _ => c.isDigit) &&
  (match l.getLast? with | some c => c.isDigit | none => false) &&
  l.all (fun c => c.isDigit || c == '_') &&
  noDoubleUnderscore l

/-- Numeric value of an ASCII digit character. -/
def pyDigitVal (c : Char) : Nat :=
  c.toNat - 48

/-- Decimal value of a digit list (most significant first). -/
def digitsVal (l : List Char) : Nat :=
  l.foldl (fun a c => 10 * a + pyDigitVal c) 0

/-- Value of a digit body, underscores removed, when well formed. -/
def pyIntDigits? (l : List Char) : Option Nat :=
  if pyDigitsOk l then some (digitsVal (l.filter (fun c => !(c == '_')))) else none

/-- The sign-and-digit-body grammar of Python `int(...)` over a
whitespace-stripped character list. -/
def pyIntChars : List Char → Option Int
  | [] => none
  | c :: rest =>
    if c == '+' then (pyIntDigits? rest).map Int.ofNat
    else if c == '-' then (pyIntDigits? rest).map (fun m => -(m : Int))
    else (pyIntDigits? (c :: rest)).map Int.ofNat

/-- Model of Python `int(s)`: surrounding whitespace is ignored, an
optional single `'+'`/`'-'` sign is allowed, and the rest must be a valid
digit body; `none` models the `ValueError` raised otherwise. -/
def pyInt? (s : String) : Option Int :=
  pyIntChars (stripList s.data)

/-- ASCII digit character of `m % 10`-style values (defined for 0..9, with
9 as the default arm). -/
def digitChar : Nat → Char
  | 0 => '0'
  | 1 => '1'
  | 2 => '2'
  | 3 => '3'
  | 4 => '4'
  | 5 => '5'
  | 6 => '6'
  | 7 => '7'
  | 8 => '8'
  | _ => '9'

/-- Decimal digits of `m`, most significant first; `fuel` bounds the
recursion and any `fuel > m` is enough. -/
def natDigitsAux : Nat → Nat → List Char
  | 0, _ => []
  | fuel + 1, m => if m < 10 then [digitChar m] else natDigitsAux fuel (m / 10) ++ [digitChar (m % 10)]

/-- Decimal digits of `m`, most significant first. -/
def natToDigits (m : Nat) : List Char :=
  natDigitsAux (m + 1) m

/-- Decimal representation of a natural number. -/
def natRepr (m : Nat) : String :=
  ⟨natToDigits m⟩

/-- Model of Python `str(n)` / f-string interpolation for an integer. -/
def pyIntRepr (n : Int) : String :=
  if n < 0 then "-" ++ natRepr n.natAbs else natRepr n.toNat

/-- First `n` characters (model of Python slicing `s[:n]`). -/
def pyTake (n : Nat) (s : String) : String :=
  ⟨s.data.take n⟩

/-- Replace non-overlapping occurrences of `pat` in `s`, left to right;
`fuel` bounds the recursion and `s.length` is enough since every step
consumes at least one character. -/
def replaceAux (pat rep : List Char) : Nat → List Char → List Char
  | 0, s => s
  | fuel + 1, s =>
    match s with
    | [] => []
    | c :: t =>
      if !pat.isEmpty && pat.isPrefixOf (c :: t) then
        rep ++ replaceAux pat rep fuel ((c :: t).drop pat.length)
      else
        c :: replaceAux pat rep fuel t

/-- Model of Python `s.replace(pat, rep)` (for nonempty `pat`). -/
def pyReplace (s pat rep : String) : String :=
  ⟨replaceAux pat.data rep.data s.data.length s.data⟩

/-- Split `hay` at the first occurrence of `needle`: the characters before
it and the characters after it, or `none` when `needle` does not occur. -/
def splitAtSub (needle : List Char) : List Char → Option (List Char × List Char)
  | [] => if needle.isEmpty then some ([], []) else none
  | c :: t =>
    if needle.isPrefixOf (c :: t) then some ([], (c :: t).drop needle.length)
    else (splitAtSub needle t).map (fun p => (c :: p.1, p.2))

/-!
## Judge (`rate_with_god_model`, lines 483-510)

The GOD model call itself is external; the judge's reply text is the
function's oracle input. The `try`/`except Exception` wrapping means a
`ValueError` from `int(...)` also yields the default `"Rating: 0"`.
-/

/-- `rate_with_god_model`, as a function of the judge model's reply text:
strip the reply, check `"Rating:" in reply`, parse `int` of the text after
the last colon, and return `f"Rating: {rating}"`; any parse failure
(missing pattern or `ValueError`) returns `"Rating: 0"`. -/
def rate_with_god_model (godReply : String) : String :=
  let rating_text := pyStrip godReply
  if pyIn ("Rating:") rating_text then
    match pyInt? (pyStrip (afterLastColon rating_text)) with
    | some n => "Rating: " ++ pyIntRepr n
    | none => "Rating: 0"
  else "Rating: 0"

/-- The rating extraction both `opus_orchestrator` (lines 87-92) and
`opus_refine` (lines 159-163) apply to the judge's formatted answer:
`int(god_rating.split(':')[-1].strip())`, defaulting to 0 on
`ValueError`. -/
def extractedRating (god_rating : String) : Int :=
  match pyInt? (pyStrip (afterLastColon god_rating)) with
  | some n => n
  | none => 0

/-- The integer score the pipeline actually uses for a given judge-model
reply: `rate_with_god_model` followed by the callers' extraction. -/
def judgeRating (godReply : String) : Int :=
  extractedRating (rate_with_god_model godReply)

/-- The parse `rate_with_god_model` performs, as an `Option`: `some n`
when the stripped reply contains `"Rating:"` and the text after its last
colon parses as an integer, `none` otherwise. -/
def pyRatingOf (t : String) : Option Int :=
  let rt := pyStrip t
  if pyIn ("Rating:") rt then pyInt? (pyStrip (afterLastColon rt)) else none

/-!
## Completion Gateway (`call_groq_api`, lines 26-41)

The single `client.chat.completions.create` call is the oracle `attempts
0`; modelling the environment as a whole stream of potential successive
attempt outcomes lets us state which attempts the code does (and does
not) consume. Both `except` arms only log and re-raise, so the outcome of
the one attempt — success, a `requests` transport error, a provider
rate-limit error, or any other exception — propagates unchanged. -/

/-- Outcome of one completion-service attempt. `rateLimitError` is a
provider rate-limit exception, `requestError` a
`requests.exceptions.RequestException`, `otherError` any other
exception. -/
inductive ApiOutcome where
  | ok (text : String)
  | rateLimitError (msg : String)
  | requestError (msg : String)
  | otherError (msg : String)
deriving DecidableEq

/-- `call_groq_api`: makes exactly one attempt and returns/raises its
outcome unchanged (`raise` in both `except` arms). -/
def call_groq_api (attempts : Nat → ApiOutcome) : ApiOutcome :=
  attempts 0

/-!
## Orchestrator (`opus_orchestrator`, lines 57-103)

The gateway reply text and the judge-model reply text of each attempt are
oracles indexed by the attempt number `k`. The Python recursion has no
cap, so the Lean model takes a `fuel` bound; `none` means the recursion
is still running after `fuel` attempts. The non-oracle inputs
(`objective`, `file_content`, `previous_results`, `use_search`) are
carried explicitly so that the recursive call's arguments can be compared
with the original ones. -/

/-- Oracle environment of one `opus_orchestrator` activation: per attempt
`k`, the gateway reply content and the judge model's raw reply. -/
structure OrchEnv where
  reply : Nat → String
  godReply : Nat → String

/-- `opus_orchestrator`: rate the attempt-`k` reply with the GOD model;
score `>= 8` returns `(response_text, file_content)`; otherwise recurse
with identical inputs on attempt `k + 1`. -/
def opus_orchestrator (env : OrchEnv) (objective : String) (file_content : Option String)
    (previous_results : List String) (use_search : Bool) :
    Nat → Nat → Option (String × Option String)
  | _, 0 => none
  | k, fuel + 1 =>
    if 8 ≤ judgeRating (env.godReply k) then
      some (env.reply k, file_content)
    else
      opus_orchestrator env objective file_content previous_results use_search (k + 1) fuel

/-!
## Refiner (`opus_refine`, lines 135-178)

A `while True` loop; each pass makes one completion call and one judge
call (oracles indexed by the attempt number), returns the reply on score
`>= 8`, returns `None` on a low score when `continuation` is already set,
and otherwise sets `continuation = True` and loops. Starting from
`continuation = False` the loop therefore runs at most twice, so fuel 2
is exact; the `fuel = 0` case is unreachable from the entry points. -/

/-- Oracle environment of one `opus_refine` activation. -/
structure RefineEnv where
  reply : Nat → String
  godReply : Nat → String

/-- One-to-one image of the `while True` body of `opus_refine`. -/
def opus_refine_loop (env : RefineEnv) : Nat → Nat → Bool → Option String
  | 0, _, _ => none
  | fuel + 1, k, continuation =>
    if 8 ≤ judgeRating (env.godReply k) then some (env.reply k)
    else if continuation then none
    else opus_refine_loop env fuel (k + 1) true

/-- `opus_refine(objective, sub_task_results, filename, projectname,
continuation)`: the three string inputs only shape the prompt (hence the
oracle) and `filename`/`projectname` are never read by the body. -/
def opus_refine (env : RefineEnv) (objective : String) (sub_task_results : List String)
    (filename projectname : String) (continuation : Bool) : Option String :=
  opus_refine_loop env 2 0 continuation

/-!
## FolderStructure and the file system

A parsed `<folder_structure>` JSON value: `dict` nodes (Python `dict`)
become folders, every other JSON value (`null`, strings, numbers, ...)
is a leaf and becomes a file — `create_folders_and_files` only tests
`isinstance(value, dict)`. `PyEntries` is the insertion-ordered item list
of a Python dict, as a mutually inductive list so that the tree walk is
structurally recursive. -/

mutual
inductive PyVal where
  | atom : PyVal
  | dict : PyEntries → PyVal
  deriving DecidableEq
inductive PyEntries where
  | nil : PyEntries
  | cons : String → PyVal → PyEntries → PyEntries
  deriving DecidableEq
end

/-- The file system, as the set of directory paths created so far and an
association list from file paths to contents. Paths are plain strings,
joined with `"/"` exactly as `os.path.join` does on POSIX. -/
structure FS where
  dirs : List String
  files : List (String × String)
deriving DecidableEq

/-- Model of `os.path.join(a, b)` for a relative second component. -/
def pathJoin (a b : String) : String :=
  a ++ "/" ++ b

/-- All the `'/'`-separated prefixes of a path, shortest first (the
directories `os.makedirs` creates); `done` is the reversed prefix already
scanned. -/
def dirPrefixes (done : List Char) : List Char → List String
  | [] => [⟨done.reverse⟩]
  | c :: t => if c == '/' then ⟨done.reverse⟩ :: dirPrefixes (c :: done) t else dirPrefixes (c :: done) t

/-- Model of `os.makedirs(p, exist_ok=True)`: every prefix directory of
`p`, including `p` itself, now exists; pre-existing entries are kept
(`exist_ok`). -/
def FS.mkdirs (fs : FS) (p : String) : FS :=
  { fs with dirs := dirPrefixes [] p.data ++ fs.dirs }

/-- Replace the binding of `p` (or add one) in a file association list. -/
def setFile : List (String × String) → String → String → List (String × String)
  | [], p, c => [(p, c)]
  | (q, d) :: rest, p, c => if q = p then (p, c) :: rest else (q, d) :: setFile rest p c

/-- Look up the content at path `p`. -/
def lookupFile : List (String × String) → String → Option String
  | [], _ => none
  | (q, c) :: rest, p => if q = p then some c else lookupFile rest p

/-- Model of `open(path, 'w')` + `file.write('')`: truncating-open leaves
an empty file at `path`, destroying any previous content. -/
def FS.writeEmpty (fs : FS) (p : String) : FS :=
  { fs with files := setFile fs.files p "" }

/-- Model of writing `content` to `path` with `open(path, 'w')`. -/
def FS.writeFile (fs : FS) (p content : String) : FS :=
  { fs with files := setFile fs.files p content }

/-- Content of the file at `p`, if one exists. -/
def FS.fileContent (fs : FS) (p : String) : Option String :=
  lookupFile fs.files p

/-!
## Output Materializer (`create_folder_structure` /
`create_folders_and_files`, lines 293-321)

`create_folders_and_files` iterates `structure.items()` in order: a dict
value gets `os.makedirs(path, exist_ok=True)` and a recursive walk, any
other value gets an empty truncating write. `code_blocks` is passed along
and never consulted, exactly as in the source. The per-node
`try`/`except OSError`/`IOError` arms only log, and in this model every
file-system operation succeeds, so the walk is total. -/

/-- `create_folders_and_files(current_path, structure, code_blocks)` over
the item list of `structure`: a `dict` value gets `os.makedirs` and a
recursive walk, any other value gets an empty truncating write; either
way the loop then continues with the remaining items. -/
def create_folders_and_files (current_path : String) (struct : PyEntries)
    (code_blocks : List (String × String)) (fs : FS) : FS :=
  match struct with
  | .nil => fs
  | .cons key (.dict sub) rest =>
    create_folders_and_files current_path rest code_blocks
      (create_folders_and_files (pathJoin current_path key) sub code_blocks
        (fs.mkdirs (pathJoin current_path key)))
  | .cons key .atom rest =>
    create_folders_and_files current_path rest code_blocks
      (fs.writeEmpty (pathJoin current_path key))

/-- `create_folder_structure(project_name, folder_structure, code_blocks)`
(lines 293-303): create the project folder, then walk the structure. -/
def create_folder_structure (project_name : String) (folder_structure : PyEntries)
    (code_blocks : List (String × String)) (fs : FS) : FS :=
  create_folders_and_files project_name folder_structure code_blocks (fs.mkdirs project_name)

/-- All nodes of a folder structure rooted under `cur`: the joined path of
every item together with its value, in walk order. -/
def structNodes (cur : String) : PyEntries → List (String × PyVal)
  | .nil => []
  | .cons k (.dict sub) rest =>
    (pathJoin cur k, .dict sub) :: structNodes (pathJoin cur k) sub ++ structNodes cur rest
  | .cons k .atom rest => (pathJoin cur k, .atom) :: structNodes cur rest

/-!
## Driver Loop (`main_logic`, lines 376-414)

`loop_counter` is incremented at the top of the `while True` body and the
body is skipped once it exceeds 5, so the body runs for counter values
1..5: `remaining` here counts the body executions still allowed,
starting at 5. The orchestrator's accepted output and the sub-agent's
result for each round are oracles indexed by the number of exchanges so
far (the orchestrator sees exactly the previous results, the sub-agent
the previous tasks). `fcH` is `file_content_for_haiku`; Python truthiness
makes the empty string falsy. -/

/-- The marker `main_logic` looks for in the orchestrator's reply. -/
def completionMarker : String :=
  "The task is complete:"

/-- The sub-task prompt of one loop round: the orchestrator output, plus
the file-content suffix when `file_content_for_haiku` is truthy and no
prior haiku task exists (lines 400-403). -/
def subTaskPrompt (fcH : Option String) (exch : List (String × String))
    (opus_result : String) : String :=
  match fcH with
  | some fc => if fc ≠ "" ∧ exch = [] then opus_result ++ "\n\nFile content:\n" ++ fc else opus_result
  | none => opus_result

/-- The `while True` loop of `main_logic`, returning the final exchange
list and, when the marker fired, the stripped final output. -/
def driver_go (orchOut subOut : Nat → String) (fcH : Option String) :
    Nat → List (String × String) → List (String × String) × Option String
  | 0, exch => (exch, none)
  | remaining + 1, exch =>
    let opus_result := orchOut exch.length
    if pyIn completionMarker opus_result then
      (exch, some (pyStrip (pyReplace opus_result completionMarker "")))
    else
      driver_go orchOut subOut fcH remaining
        (exch ++ [(subTaskPrompt fcH exch opus_result, subOut exch.length)])

/-- The driver loop from its initial state (`loop_counter = 0`,
`task_exchanges = []`). -/
def driver_loop (orchOut subOut : Nat → String) (fcH : Option String) :
    List (String × String) × Option String :=
  driver_go orchOut subOut fcH 5 []

/-!
## Post-refinement extraction and run tail (`main_logic`, lines 414-462)

`re.search(r'Project Name: (.*)', ...)` captures from after the first
occurrence of the literal to the end of that line; `re.search(
r'<folder_structure>(.*?)</folder_structure>', ..., re.DOTALL)` captures
between the first open tag and the first close tag after it. `json.loads`
and the code-block `re.findall` are external library calls, modelled as
parameters. `re.search` applied to `None` raises `TypeError`;
`structure.items()` on a non-dict JSON value raises `AttributeError`. -/

/-- Unhandled Python errors the run tail can raise. -/
inductive PyError where
  | typeError : PyError
  | attributeError : PyError
deriving DecidableEq

/-- The capture of `re.search(r'Project Name: (.*)', text)`: the text
between the first `"Project Name: "` and the following newline. -/
def projectNameGroup (text : String) : Option String :=
  match splitAtSub ("Project Name: ").data text.data with
  | some p => some ⟨p.2.takeWhile (fun c => !(c == '\n'))⟩
  | none => none

/-- The capture of the non-greedy DOTALL search for
`<folder_structure>(.*?)</folder_structure>`: the text between the first
open tag and the first close tag after it. -/
def folderBlock (text : String) : Option String :=
  match splitAtSub ("<folder_structure>").data text.data with
  | none => none
  | some p =>
    match splitAtSub ("</folder_structure>").data p.2 with
    | none => none
    | some q => some ⟨q.1⟩

/-- A run of `"="` of length 40 (`"=" * 40`). -/
def eqBar : String :=
  ⟨List.replicate 40 '='⟩

/-- The per-task section of the exchange log, tasks numbered from `i`. -/
def taskLines : Nat → List (String × String) → String
  | _, [] => ""
  | i, (p, r) :: rest =>
    "Task " ++ natRepr i ++ ":\n" ++ "Prompt: " ++ p ++ "\n" ++ "Result: " ++ r ++ "\n\n" ++
      taskLines (i + 1) rest

/-- The full exchange log text (lines 444-452). -/
def exchangeLogText (objective : String) (task_exchanges : List (String × String))
    (refined_output : String) : String :=
  "Objective: " ++ objective ++ "\n\n" ++
    eqBar ++ " Task Breakdown " ++ eqBar ++ "\n\n" ++
    taskLines 1 task_exchanges ++
    eqBar ++ " Refined Final Output " ++ eqBar ++ "\n\n" ++
    refined_output

/-- External parsers and ambient values the run tail uses: `json.loads`
(`none` models `json.JSONDecodeError`), the code-block `re.findall`, and
the timestamp. -/
structure ParseEnv where
  jsonParse : String → Option PyVal
  codeBlocksOf : String → List (String × String)
  timestamp : String

/-- What a completed run tail leaves behind. -/
structure RunOutcome where
  fs : FS
  exchangeLog : String
  projectName : String
  jsonErrorLogged : Bool
deriving DecidableEq

/-- The log file name `f"{project_directory}/{timestamp}_{truncated_objective}.md"`
with the objective truncated to 50 characters. -/
def logFileName (penv : ParseEnv) (project_directory objective : String) : String :=
  project_directory ++ "/" ++ penv.timestamp ++ "_" ++ pyTake 50 objective ++ ".md"

/-- Lines 414-462 of `main_logic` after the refiner returned: project-name
extraction, folder-structure extraction with JSON degradation, code-block
extraction, materialization, and the exchange-log write. `refined = none`
crashes in `re.search` with `TypeError`; a JSON value that is not an
object crashes in `structure.items()` with `AttributeError`. -/
def post_refine (penv : ParseEnv) (project_directory objective : String)
    (task_exchanges : List (String × String)) (refined : Option String) (fs : FS) :
    Except PyError RunOutcome :=
  match refined with
  | none => .error .typeError
  | some refined_output =>
    let project_name :=
      match projectNameGroup refined_output with
      | some s => pyStrip s
      | none => project_directory
    let code_blocks := penv.codeBlocksOf refined_output
    let folderParse : Except PyError (PyEntries × Bool) :=
      match folderBlock refined_output with
      | none => .ok (.nil, false)
      | some js =>
        match penv.jsonParse (pyStrip js) with
        | some (.dict es) => .ok (es, false)
        | some .atom => .error .attributeError
        | none => .ok (.nil, true)
    match folderParse with
    | .error e => .error e
    | .ok (folder_structure, jsonLogged) =>
      let fs1 := create_folder_structure project_directory folder_structure code_blocks fs
      let exchange_log := exchangeLogText objective task_exchanges refined_output
      let fs2 := fs1.writeFile (logFileName penv project_directory objective) exchange_log
      .ok ⟨fs2, exchange_log, project_name, jsonLogged⟩

/-!
## End-to-end composition of `main_logic` (lines 376-462)

The loop treats each accepted orchestrator output as an oracle (claim C2
quantifies over those outputs), `file_content` is initialized to `None`
at line 380 and `opus_orchestrator` returns it unchanged, so
`file_content_for_haiku` is always `none` in this composition. -/

/-- Oracles of one `main_logic` run past the optional search preamble. -/
structure MainEnv where
  orchOut : Nat → String
  subOut : Nat → String
  refineEnv : RefineEnv
  parseEnv : ParseEnv

/-- The driver loop followed by the unconditional refiner call and the
run tail. -/
def main_logic_core (env : MainEnv) (objective project_directory : String) (fs : FS) :
    Except PyError RunOutcome :=
  let lr := driver_loop env.orchOut env.subOut none
  let refined := opus_refine env.refineEnv objective (lr.1.map Prod.snd)
    project_directory project_directory false
  post_refine env.parseEnv project_directory objective lr.1 refined fs

/-!
## Parser round-trip lemmas

`rate_with_god_model` re-serializes the parsed rating as `f"Rating: {n}"`
and its callers re-parse that string; these lemmas show the re-parse
recovers exactly `n`, giving a closed characterization of `judgeRating`.
-/

theorem digitChar_isDigit (m : Nat) : (digitChar m).isDigit = true := by
  unfold digitChar
  split <;> decide

theorem digitChar_val {m : Nat} (h : m < 10) : pyDigitVal (digitChar m) = m := by
  interval_cases m <;> decide

theorem isDigit_ne_underscore {c : Char} (h : c.isDigit = true) : (c == '_') = false := by
  by_contra hx
  rw [Bool.not_eq_false, beq_iff_eq] at hx
  subst hx
  exact absurd h (by decide)

theorem isDigit_not_space {c : Char} (h : c.isDigit = true) : pyIsSpace c = false := by
  by_contra hx
  rw [Bool.not_eq_false, pyIsSpace] at hx
  simp only [Bool.or_eq_true, beq_iff_eq] at hx
  rcases hx with ((((h1 | h1) | h1) | h1) | h1) | h1 <;> subst h1 <;> exact absurd h (by decide)

theorem isDigit_ne_colon {c : Char} (h : c.isDigit = true) : (c == ':') = false := by
  by_contra hx
  rw [Bool.not_eq_false, beq_iff_eq] at hx
  subst hx
  exact absurd h (by decide)

theorem isDigit_ne_plus {c : Char} (h : c.isDigit = true) : (c == '+') = false := by
  by_contra hx
  rw [Bool.not_eq_false, beq_iff_eq] at hx
  subst hx
  exact absurd h (by decide)

theorem isDigit_ne_minus {c : Char} (h : c.isDigit = true) : (c == '-') = false := by
  by_contra hx
  rw [Bool.not_eq_false, beq_iff_eq] at hx
  subst hx
  exact absurd h (by decide)

theorem natDigitsAux_ne_nil {fuel m : Nat} (h : m < fuel) : natDigitsAux fuel m ≠ [] := by
  induction fuel generalizing m with
  | zero => omega
  | succ fuel ih =>
    unfold natDigitsAux
    split
    · simp
    · simp

theorem natDigitsAux_digits {fuel m : Nat} (h : m < fuel) :
    ∀ c ∈ natDigitsAux fuel m, c.isDigit = true := by
  induction fuel generalizing m with
  | zero => omega
  | succ fuel ih =>
    unfold natDigitsAux
    split
    · intro c hc
      simp only [List.mem_singleton] at hc
      subst hc
      exact digitChar_isDigit _
    · intro c hc
      rcases List.mem_append.mp hc with hm | hm
      · exact ih (by omega) c hm
      · simp only [List.mem_singleton] at hm
        subst hm
        exact digitChar_isDigit _

theorem natDigitsAux_foldl {fuel m : Nat} (h : m < fuel) (a : Nat) :
    (natDigitsAux fuel m).foldl (fun x c => 10 * x + pyDigitVal c) a =
      a * 10 ^ (natDigitsAux fuel m).length + m := by
  induction fuel generalizing m a with
  | zero => omega
  | succ fuel ih =>
    unfold natDigitsAux
    split
    · rename_i hlt
      simp [List.foldl, digitChar_val hlt]
      ring
    · rename_i hge
      have hdiv : m / 10 < fuel := by
        have := Nat.div_lt_self (by omega : 0 < m) (by omega : 1 < 10)
        omega
      rw [List.foldl_append, List.length_append]
      simp only [List.foldl, List.length_singleton]
      rw [ih hdiv a]
      have hmod : pyDigitVal (digitChar (m % 10)) = m % 10 := digitChar_val (Nat.mod_lt _ (by omega))
      rw [hmod, pow_succ]
      have := Nat.div_add_mod m 10
      ring_nf
      omega

theorem digitsVal_natToDigits (m : Nat) : digitsVal (natToDigits m) = m := by
  have := @natDigitsAux_foldl (m + 1) m (by omega) 0
  simpa [digitsVal, natToDigits] using this

theorem noDoubleUnderscore_of_digits {l : List Char} (h : ∀ c ∈ l, c.isDigit = true) :
    noDoubleUnderscore l = true := by
  induction l with
  | nil => rfl
  | cons c t ih =>
    match t with
    | [] => rfl
    | d :: rest =>
      unfold noDoubleUnderscore
      rw [isDigit_ne_underscore (h c (by simp))]
      simp only [Bool.false_and, Bool.not_false, Bool.true_and]
      exact ih (fun x hx => h x (by simp [hx]))

theorem pyDigitsOk_of_digits {l : List Char} (hne : l ≠ [])
    (h : ∀ c ∈ l, c.isDigit = true) : pyDigitsOk l = true := by
  unfold pyDigitsOk
  match l, hne with
  | c :: t, _ =>
    simp only [Bool.and_eq_true]
    refine ⟨⟨⟨h c (by simp), ?_⟩, ?_⟩, noDoubleUnderscore_of_digits h⟩
    · rw [List.getLast?_eq_getLast (c :: t) (by simp)]
      exact h _ (List.getLast_mem _)
    · rw [List.all_eq_true]
      intro x hx
      rw [h x hx]
      rfl

theorem dropWhile_eq_self_of_none {p : Char → Bool} {l : List Char}
    (h : ∀ c ∈ l, p c = false) : l.dropWhile p = l := by
  cases l with
  | nil => rfl
  | cons c t =>
    rw [List.dropWhile_cons, h c (by simp)]
    simp

theorem stripList_no_space {l : List Char} (h : ∀ c ∈ l, pyIsSpace c = false) :
    stripList l = l := by
  unfold stripList
  rw [dropWhile_eq_self_of_none h]
  rw [dropWhile_eq_self_of_none (by intro c hc; exact h c (List.mem_reverse.mp hc))]
  exact List.reverse_reverse l

theorem stripList_space_cons {l : List Char} (h : ∀ c ∈ l, pyIsSpace c = false) :
    stripList (' ' :: l) = l := by
  unfold stripList
  rw [List.dropWhile_cons]
  have : pyIsSpace ' ' = true := by decide
  rw [this]
  simp only [if_true]
  rw [dropWhile_eq_self_of_none h]
  rw [dropWhile_eq_self_of_none (by intro c hc; exact h c (List.mem_reverse.mp hc))]
  exact List.reverse_reverse l

theorem takeWhile_append_all {p : Char → Bool} {u v : List Char}
    (h : ∀ c ∈ u, p c = true) : (u ++ v).takeWhile p = u ++ v.takeWhile p := by
  induction u with
  | nil => rfl
  | cons c t ih =>
    rw [List.cons_append, List.takeWhile_cons, h c (by simp)]
    simp only [List.cons_append]
    rw [ih (fun x hx => h x (by simp [hx]))]
    simp

theorem filter_eq_self_of_digits {l : List Char} (h : ∀ c ∈ l, c.isDigit = true) :
    l.filter (fun c => !(c == '_')) = l := by
  rw [List.filter_eq_self]
  intro c hc
  rw [isDigit_ne_underscore (h c hc)]
  rfl

theorem pyIntDigits?_digits {l : List Char} (hne : l ≠ [])
    (h : ∀ c ∈ l, c.isDigit = true) : pyIntDigits? l = some (digitsVal l) := by
  unfold pyIntDigits?
  rw [pyDigitsOk_of_digits hne h, filter_eq_self_of_digits h]
  rfl

theorem data_append (a b : String) : (a ++ b).data = a.data ++ b.data := by
  cases a
  cases b
  rfl

theorem pyInt?_digit_list {l : List Char} (hne : l ≠ [])
    (h : ∀ c ∈ l, c.isDigit = true) : pyInt? ⟨l⟩ = some (Int.ofNat (digitsVal l)) := by
  unfold pyInt?
  have hs : stripList l = l := stripList_no_space (fun c hc => isDigit_not_space (h c hc))
  rw [show (String.mk l).data = l from rfl, hs]
  match l, hne with
  | c :: rest, _ =>
    simp only [pyIntChars]
    rw [isDigit_ne_plus (h c (by simp)), isDigit_ne_minus (h c (by simp))]
    simp only [Bool.false_eq_true, if_false]
    rw [pyIntDigits?_digits (by simp) h]
    rfl

theorem pyInt?_neg_digit_list {l : List Char} (hne : l ≠ [])
    (h : ∀ c ∈ l, c.isDigit = true) :
    pyInt? ⟨'-' :: l⟩ = some (-(digitsVal l : Int)) := by
  unfold pyInt?
  have hs : stripList ('-' :: l) = '-' :: l := by
    refine stripList_no_space ?_
    intro c hc
    rcases List.mem_cons.mp hc with hc | hc
    · subst hc; decide
    · exact isDigit_not_space (h c hc)
  rw [show (String.mk ('-' :: l)).data = '-' :: l from rfl, hs]
  simp only [pyIntChars]
  have hplus : (('-' : Char) == '+') = false := by decide
  have hminus : (('-' : Char) == '-') = true := by decide
  rw [hplus, hminus]
  simp only [Bool.false_eq_true, if_false, if_true]
  rw [pyIntDigits?_digits hne h]
  rfl

theorem natToDigits_ne_nil (m : Nat) : natToDigits m ≠ [] :=
  natDigitsAux_ne_nil (Nat.lt_succ_self m)

theorem natToDigits_digits (m : Nat) : ∀ c ∈ natToDigits m, c.isDigit = true :=
  natDigitsAux_digits (Nat.lt_succ_self m)

/-- The list form of the text after the last colon of
`"Rating: " ++ ⟨b⟩` when `b` is colon-free: the space plus `b`. -/
theorem afterLastList_rating {b : List Char} (hb : ∀ c ∈ b, (c == ':') = false) :
    afterLastList (("Rating: ").data ++ b) = ' ' :: b := by
  unfold afterLastList
  rw [List.reverse_append]
  rw [takeWhile_append_all (by intro c hc; rw [hb c (List.mem_reverse.mp hc)]; rfl)]
  rw [show (("Rating: ").data.reverse.takeWhile fun c => !(c == ':')) = [' '] from rfl]
  rw [List.reverse_append, List.reverse_reverse]
  rfl

/-- The extraction the orchestrator and refiner apply to
`f"Rating: {n}"` recovers exactly `n`. -/
theorem extractedRating_rating_repr (n : Int) :
    extractedRating ("Rating: " ++ pyIntRepr n) = n := by
  unfold extractedRating
  by_cases hneg : n < 0
  · have hrepr : pyIntRepr n = "-" ++ natRepr n.natAbs := by
      unfold pyIntRepr
      rw [if_pos hneg]
    have hdata : ("Rating: " ++ pyIntRepr n).data =
        ("Rating: ").data ++ ('-' :: natToDigits n.natAbs) := by
      rw [hrepr, data_append, data_append]
      rfl
    have hcf : ∀ c ∈ '-' :: natToDigits n.natAbs, (c == ':') = false := by
      intro c hc
      rcases List.mem_cons.mp hc with hc | hc
      · subst hc; decide
      · exact isDigit_ne_colon (natToDigits_digits _ c hc)
    have hal : afterLastColon ("Rating: " ++ pyIntRepr n) =
        ⟨' ' :: '-' :: natToDigits n.natAbs⟩ := by
      unfold afterLastColon
      rw [hdata, afterLastList_rating hcf]
    rw [hal]
    have hstrip : pyStrip ⟨' ' :: '-' :: natToDigits n.natAbs⟩ = ⟨'-' :: natToDigits n.natAbs⟩ := by
      unfold pyStrip
      rw [show (String.mk (' ' :: '-' :: natToDigits n.natAbs)).data =
        ' ' :: '-' :: natToDigits n.natAbs from rfl]
      rw [stripList_space_cons]
      intro c hc
      rcases List.mem_cons.mp hc with hc | hc
      · subst hc; decide
      · exact isDigit_not_space (natToDigits_digits _ c hc)
    rw [hstrip, pyInt?_neg_digit_list (natToDigits_ne_nil _) (natToDigits_digits _)]
    rw [digitsVal_natToDigits]
    show -(n.natAbs : Int) = n
    omega
  · have hrepr : pyIntRepr n = natRepr n.toNat := by
      unfold pyIntRepr
      rw [if_neg hneg]
    have hdata : ("Rating: " ++ pyIntRepr n).data =
        ("Rating: ").data ++ natToDigits n.toNat := by
      rw [hrepr, data_append]
      rfl
    have hcf : ∀ c ∈ natToDigits n.toNat, (c == ':') = false :=
      fun c hc => isDigit_ne_colon (natToDigits_digits _ c hc)
    have hal : afterLastColon ("Rating: " ++ pyIntRepr n) = ⟨' ' :: natToDigits n.toNat⟩ := by
      unfold afterLastColon
      rw [hdata, afterLastList_rating hcf]
    rw [hal]
    have hstrip : pyStrip ⟨' ' :: natToDigits n.toNat⟩ = ⟨natToDigits n.toNat⟩ := by
      unfold pyStrip
      rw [show (String.mk (' ' :: natToDigits n.toNat)).data =
        ' ' :: natToDigits n.toNat from rfl]
      rw [stripList_space_cons (fun c hc => isDigit_not_space (natToDigits_digits _ c hc))]
    rw [hstrip, pyInt?_digit_list (natToDigits_ne_nil _) (natToDigits_digits _)]
    rw [digitsVal_natToDigits]
    show ((n.toNat : Int)) = n
    omega

/-- `rate_with_god_model` in terms of the single parse it performs. -/
theorem rate_with_god_model_eq (t : String) :
    rate_with_god_model t =
      match pyRatingOf t with
      | some n => "Rating: " ++ pyIntRepr n
      | none => "Rating: 0" := by
  unfold rate_with_god_model pyRatingOf
  by_cases h : pyIn ("Rating:") (pyStrip t) = true
  · rw [if_pos h, if_pos h]
  · rw [if_neg h, if_neg h]

/-- The integer score the pipeline derives from a judge-model reply:
exactly the parsed rating, or 0 when the reply does not parse. -/
theorem judgeRating_eq (t : String) :
    judgeRating t = match pyRatingOf t with | some n => n | none => 0 := by
  unfold judgeRating
  rw [rate_with_god_model_eq]
  cases h : pyRatingOf t with
  | none => decide
  | some n => exact extractedRating_rating_repr n

/-!
## File-system lemmas
-/

theorem lookup_setFile_self (files : List (String × String)) (p c : String) :
    lookupFile (setFile files p c) p = some c := by
  induction files with
  | nil => simp [setFile, lookupFile]
  | cons qd rest ih =>
    obtain ⟨q, d⟩ := qd
    by_cases h : q = p
    · simp [setFile, lookupFile, h]
    · simp [setFile, lookupFile, h, ih]

theorem lookup_setFile_other (files : List (String × String)) (p q c : String) (h : q ≠ p) :
    lookupFile (setFile files q c) p = lookupFile files p := by
  induction files with
  | nil => simp [setFile, lookupFile, h]
  | cons rd rest ih =>
    obtain ⟨r, d⟩ := rd
    by_cases hr : r = q
    · subst hr
      simp [setFile, lookupFile, h]
    · by_cases hp : r = p
      · subst hp
        simp [setFile, lookupFile, hr]
      · simp [setFile, lookupFile, hr, hp, ih]

theorem mem_dirPrefixes_self (done : List Char) (l : List Char) :
    (⟨done.reverse ++ l⟩ : String) ∈ dirPrefixes done l := by
  induction l generalizing done with
  | nil => simp [dirPrefixes]
  | cons c t ih =>
    unfold dirPrefixes
    by_cases h : (c == '/') = true
    · rw [if_pos h]
      refine List.mem_cons.mpr (Or.inr ?_)
      have := ih (c :: done)
      simpa using this
    · rw [if_neg h]
      have := ih (c :: done)
      simpa using this

theorem self_mem_mkdirs (fs : FS) (p : String) : p ∈ (fs.mkdirs p).dirs := by
  unfold FS.mkdirs
  refine List.mem_append.mpr (Or.inl ?_)
  have := mem_dirPrefixes_self [] p.data
  simpa using this

theorem mkdirs_dirs_mono (fs : FS) (p q : String) (h : q ∈ fs.dirs) :
    q ∈ (fs.mkdirs p).dirs := by
  unfold FS.mkdirs
  exact List.mem_append.mpr (Or.inr h)

theorem writeEmpty_dirs (fs : FS) (p : String) : (fs.writeEmpty p).dirs = fs.dirs := rfl

theorem mkdirs_fileContent (fs : FS) (p q : String) :
    (fs.mkdirs p).fileContent q = fs.fileContent q := rfl

theorem writeEmpty_fileContent_self (fs : FS) (p : String) :
    (fs.writeEmpty p).fileContent p = some "" :=
  lookup_setFile_self fs.files p ""

theorem writeEmpty_fileContent_empty (fs : FS) (p q : String)
    (h : fs.fileContent p = some "") : (fs.writeEmpty q).fileContent p = some "" := by
  by_cases hq : q = p
  · subst hq
    exact writeEmpty_fileContent_self fs q
  · unfold FS.writeEmpty FS.fileContent
    rw [lookup_setFile_other fs.files p q "" hq]
    exact h

/-!
## Materializer walk lemmas

The walk only ever adds directories and writes empty files, so directory
membership and empty-file contents are preserved by any further walking;
this is proved by strong induction on the structure size.
-/

/-- Size of a structure, counting every node (structural, for the strong
induction measure). -/
def entriesSize : PyEntries → Nat
  | .nil => 0
  | .cons _ .atom rest => 1 + entriesSize rest
  | .cons _ (.dict sub) rest => 1 + entriesSize sub + entriesSize rest

theorem cfaf_dirs_mono_aux (n : Nat) :
    ∀ st : PyEntries, entriesSize st ≤ n →
      ∀ (cur : String) (cbs : List (String × String)) (fs : FS) (p : String),
        p ∈ fs.dirs → p ∈ (create_folders_and_files cur st cbs fs).dirs := by
  induction n with
  | zero =>
    intro st hst cur cbs fs p hp
    cases st with
    | nil => exact hp
    | cons key v rest =>
      exfalso
      cases v <;> simp [entriesSize] at hst
  | succ n ih =>
    intro st hst cur cbs fs p hp
    match st with
    | .nil => exact hp
    | .cons key .atom rest =>
      unfold create_folders_and_files
      refine ih rest ?_ cur cbs _ p hp
      · unfold entriesSize at hst
        omega
    | .cons key (.dict sub) rest =>
      unfold create_folders_and_files
      refine ih rest ?_ cur cbs _ p ?_
      · unfold entriesSize at hst
        omega
      · refine ih sub ?_ _ cbs _ p (mkdirs_dirs_mono fs _ p hp)
        unfold entriesSize at hst
        omega

theorem cfaf_dirs_mono {cur : String} {st : PyEntries} {cbs : List (String × String)}
    {fs : FS} {p : String} (hp : p ∈ fs.dirs) :
    p ∈ (create_folders_and_files cur st cbs fs).dirs :=
  cfaf_dirs_mono_aux (entriesSize st) st (le_refl _) cur cbs fs p hp

theorem cfaf_files_mono_aux (n : Nat) :
    ∀ st : PyEntries, entriesSize st ≤ n →
      ∀ (cur : String) (cbs : List (String × String)) (fs : FS) (p : String),
        fs.fileContent p = some "" →
        (create_folders_and_files cur st cbs fs).fileContent p = some "" := by
  induction n with
  | zero =>
    intro st hst cur cbs fs p hp
    cases st with
    | nil => exact hp
    | cons key v rest =>
      exfalso
      cases v <;> simp [entriesSize] at hst
  | succ n ih =>
    intro st hst cur cbs fs p hp
    match st with
    | .nil => exact hp
    | .cons key .atom rest =>
      unfold create_folders_and_files
      refine ih rest ?_ cur cbs _ p (writeEmpty_fileContent_empty fs p _ hp)
      unfold entriesSize at hst
      omega
    | .cons key (.dict sub) rest =>
      unfold create_folders_and_files
      refine ih rest ?_ cur cbs _ p ?_
      · unfold entriesSize at hst
        omega
      · refine ih sub ?_ _ cbs _ p ?_
        · unfold entriesSize at hst
          omega
        · rw [mkdirs_fileContent]
          exact hp

theorem cfaf_files_mono {cur : String} {st : PyEntries} {cbs : List (String × String)}
    {fs : FS} {p : String} (hp : fs.fileContent p = some "") :
    (create_folders_and_files cur st cbs fs).fileContent p = some "" :=
  cfaf_files_mono_aux (entriesSize st) st (le_refl _) cur cbs fs p hp

theorem cfaf_nodes_aux (n : Nat) :
    ∀ st : PyEntries, entriesSize st ≤ n →
      ∀ (cur : String) (cbs : List (String × String)) (fs : FS) (p : String) (v : PyVal),
        (p, v) ∈ structNodes cur st →
        (v = .atom → (create_folders_and_files cur st cbs fs).fileContent p = some "") ∧
        (∀ sub, v = .dict sub → p ∈ (create_folders_and_files cur st cbs fs).dirs) := by
  induction n with
  | zero =>
    intro st hst cur cbs fs p v hmem
    cases st with
    | nil => simp [structNodes] at hmem
    | cons key v' rest =>
      exfalso
      cases v' <;> simp [entriesSize] at hst
  | succ n ih =>
    intro st hst cur cbs fs p v hmem
    match st with
    | .nil => simp [structNodes] at hmem
    | .cons key .atom rest =>
      have hsz : entriesSize rest ≤ n := by
        unfold entriesSize at hst
        omega
      rw [structNodes] at hmem
      rcases List.mem_cons.mp hmem with hhead | htail
      · obtain ⟨hp, hv⟩ := Prod.mk.inj hhead
        subst hp
        subst hv
        constructor
        · intro _
          unfold create_folders_and_files
          exact cfaf_files_mono (writeEmpty_fileContent_self fs _)
        · intro sub hv
          exact absurd hv (by simp)
      · have := ih rest hsz cur cbs (fs.writeEmpty (pathJoin cur key)) p v htail
        unfold create_folders_and_files
        exact this
    | .cons key (.dict sub) rest =>
      have hszr : entriesSize rest ≤ n := by
        unfold entriesSize at hst
        omega
      have hszs : entriesSize sub ≤ n := by
        unfold entriesSize at hst
        omega
      rw [structNodes] at hmem
      rcases List.mem_cons.mp hmem with hhead | htail
      · obtain ⟨hp, hv⟩ := Prod.mk.inj hhead
        subst hp
        subst hv
        constructor
        · intro hv
          exact absurd hv (by simp)
        · intro sub' _
          unfold create_folders_and_files
          refine cfaf_dirs_mono (cfaf_dirs_mono ?_)
          exact self_mem_mkdirs fs _
      · rcases List.mem_append.mp htail with hsub | hrest
        · have := ih sub hszs (pathJoin cur key) cbs (fs.mkdirs (pathJoin cur key)) p v hsub
          unfold create_folders_and_files
          constructor
          · intro hv
            exact cfaf_files_mono (this.1 hv)
          · intro s hv
            exact cfaf_dirs_mono (this.2 s hv)
        · have := ih rest hszr cur cbs
            (create_folders_and_files (pathJoin cur key) sub cbs (fs.mkdirs (pathJoin cur key)))
            p v hrest
          unfold create_folders_and_files
          exact this

/-- Distinct relative components yield distinct joined paths under any
(pair of nested) roots: used to show the walk's writes do not collide. -/
theorem pathJoin_readme_ne_mainpy (root : String) :
    pathJoin root "README.md" ≠ pathJoin (pathJoin root "src") "main.py" := by
  intro h
  have hd := congrArg String.data h
  rw [pathJoin, pathJoin, pathJoin] at hd
  simp only [data_append, List.append_assoc] at hd
  have := List.append_cancel_left hd
  exact absurd this (by decide)

/-!
## Claim theorems
-/

set_option maxHeartbeats 1600000 in
/-- Claim C1: for every call to `opus_orchestrator`, a Judge score `>= 8`
returns the gateway reply verbatim (paired with the unchanged
`file_content`); a score `< 8` recurses with exactly the same inputs
(`objective`, `file_content`, `previous_results`, `use_search`) on the
next attempt, with no retry cap (every finite fuel is exhausted while all
scores stay below 8); and any returned value is the verbatim reply of
some attempt whose score reached 8. -/
theorem orchestrator_judge_gate :
    (∀ (env : OrchEnv) (obj : String) (fc : Option String) (pr : List String) (us : Bool)
        (k fuel : Nat),
      (8 ≤ judgeRating (env.godReply k) →
        opus_orchestrator env obj fc pr us k (fuel + 1) = some (env.reply k, fc)) ∧
      (judgeRating (env.godReply k) < 8 →
        opus_orchestrator env obj fc pr us k (fuel + 1) =
          opus_orchestrator env obj fc pr us (k + 1) fuel)) ∧
    (∀ (env : OrchEnv) (obj : String) (fc : Option String) (pr : List String) (us : Bool)
        (k fuel : Nat) (r : String) (o : Option String),
      opus_orchestrator env obj fc pr us k fuel = some (r, o) →
      ∃ j, k ≤ j ∧ 8 ≤ judgeRating (env.godReply j) ∧ r = env.reply j ∧ o = fc) ∧
    (∀ (env : OrchEnv) (obj : String) (fc : Option String) (pr : List String) (us : Bool),
      (∀ j, judgeRating (env.godReply j) < 8) →
      ∀ fuel k, opus_orchestrator env obj fc pr us k fuel = none) := by
  refine ⟨?_, ?_, ?_⟩
  · intro env obj fc pr us k fuel
    constructor
    · intro h
      show (if 8 ≤ judgeRating (env.godReply k) then some (env.reply k, fc)
          else opus_orchestrator env obj fc pr us (k + 1) fuel) = some (env.reply k, fc)
      rw [if_pos h]
    · intro h
      show (if 8 ≤ judgeRating (env.godReply k) then some (env.reply k, fc)
          else opus_orchestrator env obj fc pr us (k + 1) fuel) =
        opus_orchestrator env obj fc pr us (k + 1) fuel
      rw [if_neg (by omega)]
  · intro env obj fc pr us k fuel
    induction fuel generalizing k with
    | zero =>
      intro r o h
      exact absurd h (by simp [opus_orchestrator])
    | succ fuel ih =>
      intro r o h
      have h' : (if 8 ≤ judgeRating (env.godReply k) then some (env.reply k, fc)
          else opus_orchestrator env obj fc pr us (k + 1) fuel) = some (r, o) := h
      by_cases hk : 8 ≤ judgeRating (env.godReply k)
      · rw [if_pos hk] at h'
        obtain ⟨hr, ho⟩ := Prod.mk.inj (Option.some.inj h')
        exact ⟨k, le_refl k, hk, hr.symm, ho.symm⟩
      · rw [if_neg hk] at h'
        obtain ⟨j, hj, hs, hr, ho⟩ := ih (k + 1) r o h'
        exact ⟨j, by omega, hs, hr, ho⟩
  · intro env obj fc pr us h fuel
    induction fuel with
    | zero => intro k; rfl
    | succ fuel ih =>
      intro k
      show (if 8 ≤ judgeRating (env.godReply k) then some (env.reply k, fc)
          else opus_orchestrator env obj fc pr us (k + 1) fuel) = none
      rw [if_neg (by have := h k; omega)]
      exact ih (k + 1)

/-- Oracle used to witness the orchestrator claim: attempt 0 is rejected
by the judge, attempt 1 is accepted. -/
def orchWitnessEnv : OrchEnv :=
  ⟨fun k => if k = 0 then "draft step" else "final step",
   fun k => if k = 0 then "Rating: 4" else "Rating: 9"⟩

/-- Witness for `orchestrator_judge_gate` at a concrete oracle. -/
theorem orchestrator_judge_gate_witness :
    judgeRating (orchWitnessEnv.godReply 0) < 8 ∧
    8 ≤ judgeRating (orchWitnessEnv.godReply 1) ∧
    opus_orchestrator orchWitnessEnv ("obj") none [] false 0 2 =
      some (orchWitnessEnv.reply 1, none) := by
  refine ⟨by decide, by decide, ?_⟩
  rw [(orchestrator_judge_gate.1 orchWitnessEnv ("obj") none [] false 0 1).2 (by decide)]
  exact (orchestrator_judge_gate.1 orchWitnessEnv ("obj") none [] false 1 0).1 (by decide)

set_option maxHeartbeats 1600000 in
/-- Claim C3: `opus_refine` entered with the continuation flag unset
returns `none` exactly when the first two judge scores are both below 8;
a first score `>= 8` returns the first reply, a first low score followed
by a score `>= 8` returns the second reply; and the outcome depends only
on the first two attempts (the loop never makes a third attempt). -/
theorem refiner_two_attempt_policy :
    ∀ (env : RefineEnv) (obj : String) (rs : List String) (fn pn : String),
      (opus_refine env obj rs fn pn false = none ↔
        judgeRating (env.godReply 0) < 8 ∧ judgeRating (env.godReply 1) < 8) ∧
      (8 ≤ judgeRating (env.godReply 0) →
        opus_refine env obj rs fn pn false = some (env.reply 0)) ∧
      (judgeRating (env.godReply 0) < 8 → 8 ≤ judgeRating (env.godReply 1) →
        opus_refine env obj rs fn pn false = some (env.reply 1)) ∧
      (∀ env' : RefineEnv, env.reply 0 = env'.reply 0 → env.reply 1 = env'.reply 1 →
        env.godReply 0 = env'.godReply 0 → env.godReply 1 = env'.godReply 1 →
        opus_refine env obj rs fn pn false = opus_refine env' obj rs fn pn false) := by
  have hunf : ∀ env : RefineEnv, ∀ obj rs fn pn,
      opus_refine env obj rs fn pn false =
        if 8 ≤ judgeRating (env.godReply 0) then some (env.reply 0)
        else if 8 ≤ judgeRating (env.godReply 1) then some (env.reply 1)
        else none := by
    intro env obj rs fn pn
    show opus_refine_loop env 2 0 false =
      if 8 ≤ judgeRating (env.godReply 0) then some (env.reply 0)
      else if 8 ≤ judgeRating (env.godReply 1) then some (env.reply 1)
      else none
    unfold opus_refine_loop
    by_cases h0 : 8 ≤ judgeRating (env.godReply 0)
    · rw [if_pos h0, if_pos h0]
    · rw [if_neg h0, if_neg h0]
      simp only [Bool.false_eq_true, if_false]
      unfold opus_refine_loop
      by_cases h1 : 8 ≤ judgeRating (env.godReply 1)
      · rw [if_pos h1, if_pos h1]
      · rw [if_neg h1, if_neg h1]
        simp
  intro env obj rs fn pn
  refine ⟨?_, ?_, ?_, ?_⟩
  · rw [hunf]
    constructor
    · intro h
      by_cases h0 : 8 ≤ judgeRating (env.godReply 0)
      · rw [if_pos h0] at h
        exact absurd h (by simp)
      · rw [if_neg h0] at h
        by_cases h1 : 8 ≤ judgeRating (env.godReply 1)
        · rw [if_pos h1] at h
          exact absurd h (by simp)
        · exact ⟨by omega, by omega⟩
    · intro ⟨h0, h1⟩
      rw [if_neg (by omega), if_neg (by omega)]
  · intro h0
    rw [hunf, if_pos h0]
  · intro h0 h1
    rw [hunf, if_neg (by omega), if_pos h1]
  · intro env' hr0 hr1 hg0 hg1
    rw [hunf, hunf, hr0, hr1, hg0, hg1]

/-- Oracle used to witness the refiner claim: the first draft is
rejected, the second accepted. -/
def refineWitnessEnv : RefineEnv :=
  ⟨fun k => if k = 0 then "draft A" else "draft B",
   fun k => if k = 0 then "Rating: 5" else "Rating: 8"⟩

/-- Witness for `refiner_two_attempt_policy` at a concrete oracle. -/
theorem refiner_two_attempt_policy_witness :
    judgeRating (refineWitnessEnv.godReply 0) < 8 ∧
    8 ≤ judgeRating (refineWitnessEnv.godReply 1) ∧
    opus_refine refineWitnessEnv ("obj") [] ("f") ("p") false =
      some (refineWitnessEnv.reply 1) := by
  refine ⟨by decide, by decide, ?_⟩
  exact (refiner_two_attempt_policy refineWitnessEnv ("obj") [] ("f") ("p")).2.2.1
    (by decide) (by decide)

/-- A gateway attempt stream whose first attempt hits a rate limit and
whose second attempt would succeed. -/
def rateLimitedAttempts : Nat → ApiOutcome :=
  fun i => if i = 0 then .rateLimitError ("429 Too Many Requests") else .ok ("recovered")

/-- Counterexample to claim C4: on a rate-limit failure `call_groq_api`
does not retry — even though the very next attempt would have succeeded
(well within the claimed budget of 3), the rate-limit failure propagates
to the caller and no retry, sleep, model downgrade, or distinct
"retries exhausted" outcome occurs. -/
theorem call_groq_api_no_retry_cex :
    call_groq_api rateLimitedAttempts = ApiOutcome.rateLimitError ("429 Too Many Requests") ∧
    rateLimitedAttempts 1 = ApiOutcome.ok ("recovered") ∧
    call_groq_api rateLimitedAttempts ≠ ApiOutcome.ok ("recovered") := by
  exact ⟨rfl, rfl, by decide⟩

/-- Claim C4 (amended): `call_groq_api` makes exactly one completion
attempt; its outcome — success, rate-limit, transport or other failure —
is returned/re-raised unchanged, and the result never depends on any
later attempt. -/
theorem call_groq_api_single_attempt :
    ∀ attempts attempts' : Nat → ApiOutcome,
      call_groq_api attempts = attempts 0 ∧
      (attempts 0 = attempts' 0 → call_groq_api attempts = call_groq_api attempts') ∧
      (∀ msg, attempts 0 = ApiOutcome.rateLimitError msg →
        call_groq_api attempts = ApiOutcome.rateLimitError msg) := by
  intro attempts attempts'
  refine ⟨rfl, ?_, ?_⟩
  · intro h
    unfold call_groq_api
    exact h
  · intro msg h
    unfold call_groq_api
    exact h

/-- A second attempt stream agreeing with `rateLimitedAttempts` on the
attempt the code makes and differing afterwards. -/
def rateLimitedAttemptsVariant : Nat → ApiOutcome :=
  fun i => if i = 0 then .rateLimitError ("429 Too Many Requests") else .otherError ("boom")

/-- Witness for `call_groq_api_single_attempt` at concrete streams. -/
theorem call_groq_api_single_attempt_witness :
    rateLimitedAttempts 0 = rateLimitedAttemptsVariant 0 ∧
    call_groq_api rateLimitedAttempts = call_groq_api rateLimitedAttemptsVariant ∧
    call_groq_api rateLimitedAttempts = ApiOutcome.rateLimitError ("429 Too Many Requests") := by
  refine ⟨by decide, ?_, ?_⟩
  · exact (call_groq_api_single_attempt rateLimitedAttempts rateLimitedAttemptsVariant).2.1
      (by decide)
  · exact (call_groq_api_single_attempt rateLimitedAttempts rateLimitedAttemptsVariant).2.2
      ("429 Too Many Requests") (by decide)

/-- Claim C5: for every judge-model reply `t`, when `t` (stripped)
contains `"Rating:"` and the text after its last colon parses as the
integer `n`, the Judge answers `f"Rating: {n}"` and the score the
pipeline extracts is exactly `n`; for every non-matching `t` (missing
pattern or non-integer suffix) it answers `"Rating: 0"` and the score is
0. `rate_with_god_model` is a total function, so no parse failure
escapes it. -/
theorem judge_parse_exact :
    ∀ (t : String) (n : Int),
      (pyRatingOf t = some n →
        rate_with_god_model t = "Rating: " ++ pyIntRepr n ∧ judgeRating t = n) ∧
      (pyRatingOf t = none →
        rate_with_god_model t = "Rating: 0" ∧ judgeRating t = 0) := by
  intro t n
  constructor
  · intro h
    constructor
    · rw [rate_with_god_model_eq, h]
    · rw [judgeRating_eq, h]
  · intro h
    constructor
    · rw [rate_with_god_model_eq, h]
    · rw [judgeRating_eq, h]

/-- Witness for `judge_parse_exact` at concrete replies. -/
theorem judge_parse_exact_witness :
    pyRatingOf ("Rating: 7") = some 7 ∧
    rate_with_god_model ("Rating: 7") = "Rating: 7" ∧
    judgeRating ("Rating: 7") = 7 ∧
    pyRatingOf ("no score here") = none ∧
    rate_with_god_model ("no score here") = "Rating: 0" ∧
    judgeRating ("no score here") = 0 := by
  have h1 := (judge_parse_exact ("Rating: 7") 7).1 (by decide)
  have h2 := (judge_parse_exact ("no score here") 0).2 (by decide)
  exact ⟨by decide, h1.1.trans (by decide), h1.2, by decide, h2.1, h2.2⟩

/-- Counterexample to claim C9: the judge reply `"Rating: 11"` parses and
the Judge returns the unclamped score 11, outside `[0, 10]`. -/
theorem judge_out_of_range_cex :
    rate_with_god_model ("Rating: 11") = "Rating: 11" ∧
    judgeRating ("Rating: 11") = 11 ∧ ¬(judgeRating ("Rating: 11") ≤ 10) := by
  exact ⟨by decide, by decide, by decide⟩

/-- Claim C9 (amended): the score the Judge produces is an integer equal
to the parsed rating of the reply, with 0 whenever the reply does not
parse; no clamping happens, so the score lies in `[0, 10]` exactly when
the parsed integer does (and always on parse failure). -/
theorem judge_score_range :
    ∀ (t : String),
      (pyRatingOf t = none →
        judgeRating t = 0 ∧ 0 ≤ judgeRating t ∧ judgeRating t ≤ 10) ∧
      (∀ n : Int, pyRatingOf t = some n →
        judgeRating t = n ∧
        ((0 ≤ judgeRating t ∧ judgeRating t ≤ 10) ↔ (0 ≤ n ∧ n ≤ 10))) := by
  intro t
  constructor
  · intro h
    rw [judgeRating_eq, h]
    exact ⟨rfl, by decide, by decide⟩
  · intro n h
    rw [judgeRating_eq, h]
    exact ⟨rfl, Iff.rfl⟩

/-- Witness for `judge_score_range` at concrete replies, including an
out-of-range one. -/
theorem judge_score_range_witness :
    pyRatingOf ("Rating: 11") = some 11 ∧
    judgeRating ("Rating: 11") = 11 ∧
    pyRatingOf ("garbage") = none ∧
    judgeRating ("garbage") = 0 := by
  have h1 := (judge_score_range ("Rating: 11")).2 11 (by decide)
  have h2 := (judge_score_range ("garbage")).1 (by decide)
  exact ⟨by decide, h1.1, by decide, h2.1⟩

/-- Claim C10: when the Refiner signals failure with `None`, the
post-refinement step of `main_logic` applies `re.search` for the project
name to `None` and raises an unhandled `TypeError`, so the run produces
neither a materialized tree nor an exchange log. -/
theorem refiner_none_crashes_run :
    ∀ (env : MainEnv) (objective project_directory : String) (fs : FS),
      opus_refine env.refineEnv objective
        ((driver_loop env.orchOut env.subOut none).1.map Prod.snd)
        project_directory project_directory false = none →
      main_logic_core env objective project_directory fs = .error .typeError := by
  intro env objective project_directory fs h
  show post_refine env.parseEnv project_directory objective
      (driver_loop env.orchOut env.subOut none).1
      (opus_refine env.refineEnv objective
        ((driver_loop env.orchOut env.subOut none).1.map Prod.snd)
        project_directory project_directory false) fs = Except.error PyError.typeError
  rw [h]
  rfl

/-- One unfolding of the driver loop body when the marker is present:
the loop stops with the exchanges unchanged and the cleaned reply. -/
theorem driver_go_step_final (orchOut subOut : Nat → String) (fcH : Option String)
    (rem : Nat) (exch : List (String × String))
    (h : pyIn completionMarker (orchOut exch.length) = true) :
    driver_go orchOut subOut fcH (rem + 1) exch =
      (exch, some (pyStrip (pyReplace (orchOut exch.length) completionMarker ""))) := by
  show (if pyIn completionMarker (orchOut exch.length) = true
      then (exch, some (pyStrip (pyReplace (orchOut exch.length) completionMarker "")))
      else driver_go orchOut subOut fcH rem
        (exch ++ [(subTaskPrompt fcH exch (orchOut exch.length), subOut exch.length)])) =
    (exch, some (pyStrip (pyReplace (orchOut exch.length) completionMarker "")))
  rw [if_pos h]

/-- One unfolding of the driver loop body when the marker is absent: one
exchange is appended and the loop continues. -/
theorem driver_go_step_cont (orchOut subOut : Nat → String) (fcH : Option String)
    (rem : Nat) (exch : List (String × String))
    (h : pyIn completionMarker (orchOut exch.length) = false) :
    driver_go orchOut subOut fcH (rem + 1) exch =
      driver_go orchOut subOut fcH rem
        (exch ++ [(subTaskPrompt fcH exch (orchOut exch.length), subOut exch.length)]) := by
  show (if pyIn completionMarker (orchOut exch.length) = true
      then (exch, some (pyStrip (pyReplace (orchOut exch.length) completionMarker "")))
      else driver_go orchOut subOut fcH rem
        (exch ++ [(subTaskPrompt fcH exch (orchOut exch.length), subOut exch.length)])) =
    driver_go orchOut subOut fcH rem
      (exch ++ [(subTaskPrompt fcH exch (orchOut exch.length), subOut exch.length)])
  rw [if_neg (by simp [h])]

theorem driver_go_length (orchOut subOut : Nat → String) (fcH : Option String) :
    ∀ (rem : Nat) (exch : List (String × String)),
      (driver_go orchOut subOut fcH rem exch).1.length ≤ exch.length + rem := by
  intro rem
  induction rem with
  | zero =>
    intro exch
    simp [driver_go]
  | succ rem ih =>
    intro exch
    by_cases h : pyIn completionMarker (orchOut exch.length) = true
    · rw [driver_go_step_final orchOut subOut fcH rem exch h]
      simp
    · rw [driver_go_step_cont orchOut subOut fcH rem exch (by simpa using h)]
      have := ih (exch ++ [(subTaskPrompt fcH exch (orchOut exch.length), subOut exch.length)])
      simp only [List.length_append, List.length_singleton] at this
      omega

theorem driver_go_congr (o s o' s' : Nat → String) (fcH : Option String) :
    ∀ (rem : Nat) (exch : List (String × String)), exch.length + rem ≤ 5 →
      (∀ i < 5, o i = o' i) → (∀ i < 5, s i = s' i) →
      driver_go o s fcH rem exch = driver_go o' s' fcH rem exch := by
  intro rem
  induction rem with
  | zero =>
    intro exch _ _ _
    rfl
  | succ rem ih =>
    intro exch hlen ho hs
    have hidx : exch.length < 5 := by omega
    have ho' : o exch.length = o' exch.length := ho _ hidx
    have hs' : s exch.length = s' exch.length := hs _ hidx
    by_cases h : pyIn completionMarker (o exch.length) = true
    · rw [driver_go_step_final o s fcH rem exch h,
        driver_go_step_final o' s' fcH rem exch (ho' ▸ h), ho']
    · have h' : pyIn completionMarker (o exch.length) = false := by simpa using h
      rw [driver_go_step_cont o s fcH rem exch h',
        driver_go_step_cont o' s' fcH rem exch (ho' ▸ h')]
      rw [ho', hs']
      refine ih _ ?_ ho hs
      simp only [List.length_append, List.length_singleton]
      omega

/-- Claim C2: the Driver Loop executes at most 5 sub-task iterations for
every sequence of Orchestrator outputs — at most 5 exchanges are
appended, and the run consults the orchestrator and sub-agent oracles
only for rounds 0..4; after the loop exits (cap or marker) the Refiner
is called unconditionally on whatever exchanges exist, possibly zero,
and the run tail processes its result. -/
theorem driver_loop_iteration_cap :
    (∀ (orchOut subOut : Nat → String) (fcH : Option String),
      (driver_loop orchOut subOut fcH).1.length ≤ 5) ∧
    (∀ (o s o' s' : Nat → String) (fcH : Option String),
      (∀ i < 5, o i = o' i) → (∀ i < 5, s i = s' i) →
      driver_loop o s fcH = driver_loop o' s' fcH) ∧
    (∀ (env : MainEnv) (objective project_directory : String) (fs : FS),
      main_logic_core env objective project_directory fs =
        post_refine env.parseEnv project_directory objective
          (driver_loop env.orchOut env.subOut none).1
          (opus_refine env.refineEnv objective
            ((driver_loop env.orchOut env.subOut none).1.map Prod.snd)
            project_directory project_directory false) fs) := by
  refine ⟨?_, ?_, ?_⟩
  · intro orchOut subOut fcH
    have := driver_go_length orchOut subOut fcH 5 []
    simpa [driver_loop] using this
  · intro o s o' s' fcH ho hs
    exact driver_go_congr o s o' s' fcH 5 [] (by simp) ho hs
  · intro env objective project_directory fs
    rfl

/-- An orchestrator oracle that never emits the completion marker. -/
def capOrchA : Nat → String := fun _ => "more work"

/-- An orchestrator oracle agreeing with `capOrchA` on rounds 0..4 and
differing from round 5 on. -/
def capOrchB : Nat → String :=
  fun i => if i < 5 then "more work" else "The task is complete: nothing"

/-- The sub-agent oracle used by the cap witness. -/
def capSub : Nat → String := fun _ => "partial"

/-- Witness for `driver_loop_iteration_cap` at concrete oracles. -/
theorem driver_loop_iteration_cap_witness :
    (driver_loop capOrchA capSub none).1.length ≤ 5 ∧
    (∀ i < 5, capOrchA i = capOrchB i) ∧
    driver_loop capOrchA capSub none = driver_loop capOrchB capSub none :=
  ⟨driver_loop_iteration_cap.1 capOrchA capSub none, by decide,
    driver_loop_iteration_cap.2.1 capOrchA capSub capOrchB capSub none (by decide)
      (fun _ _ => rfl)⟩

/-- An orchestrator reply that contains the completion marker in the
middle but does not open with it. -/
def markerMidOrch : Nat → String := fun _ => "Summary. The task is complete: all done"

/-- The sub-agent oracle of the marker counterexample (never reached). -/
def markerMidSub : Nat → String := fun _ => "unused"

/-- Counterexample to claim C6: a reply that does not open with the
literal marker — it appears mid-text — is nevertheless treated as final
by the Driver Loop (the loop stops at once with no exchange), because
line 395 tests `in` (containment), not a prefix; moreover every
occurrence of the marker is removed from the final output, which is then
whitespace-stripped. -/
theorem driver_marker_prefix_cex :
    pyStartsWith (markerMidOrch 0) completionMarker = false ∧
    driver_loop markerMidOrch markerMidSub none = ([], some ("Summary.  all done")) := by
  exact ⟨by decide, by decide⟩

/-- Claim C6 (amended): an accepted orchestrator reply is treated as
final if and only if it contains the literal marker
`"The task is complete:"` anywhere (Python `in`); when it does, the loop
stops with the exchanges unchanged and the reply with all marker
occurrences removed and surrounding whitespace stripped; when it does
not, exactly one exchange is appended and the loop continues. -/
theorem driver_final_iff_contains :
    ∀ (orchOut subOut : Nat → String) (fcH : Option String) (rem : Nat)
      (exch : List (String × String)),
      (pyIn completionMarker (orchOut exch.length) = true →
        driver_go orchOut subOut fcH (rem + 1) exch =
          (exch, some (pyStrip (pyReplace (orchOut exch.length) completionMarker "")))) ∧
      (pyIn completionMarker (orchOut exch.length) = false →
        driver_go orchOut subOut fcH (rem + 1) exch =
          driver_go orchOut subOut fcH rem
            (exch ++ [(subTaskPrompt fcH exch (orchOut exch.length), subOut exch.length)])) := by
  intro orchOut subOut fcH rem exch
  exact ⟨driver_go_step_final orchOut subOut fcH rem exch,
    driver_go_step_cont orchOut subOut fcH rem exch⟩

/-- Witness for `driver_final_iff_contains` at a concrete mid-text
marker reply. -/
theorem driver_final_iff_contains_witness :
    pyIn completionMarker (markerMidOrch 0) = true ∧
    driver_go markerMidOrch markerMidSub none 5 [] =
      ([], some (pyStrip (pyReplace (markerMidOrch 0) completionMarker ""))) := by
  refine ⟨by decide, ?_⟩
  exact (driver_final_iff_contains markerMidOrch markerMidSub none 4 []).1 (by decide)

/-- The folder structure of claim C7:
`{"src": {"main.py": null}, "README.md": null}`. -/
def demoStructure : PyEntries :=
  .cons ("src") (.dict (.cons ("main.py") .atom .nil)) (.cons ("README.md") .atom .nil)

/-- Claim C7: materializing
`{"src": {"main.py": null}, "README.md": null}` under any root and over
any pre-existing file system produces the directory `root/src` and empty
files `root/src/main.py` and `root/README.md` — also when `main.py`
already existed with content, which the truncating-open destroys (the
initial file system is universally quantified); and in general every
`dict` node of a structure becomes a directory of the resulting file
system and every leaf node an empty file. -/
theorem materializer_tree :
    (∀ (root : String) (cbs : List (String × String)) (fs : FS),
      root ∈ (create_folder_structure root demoStructure cbs fs).dirs ∧
      pathJoin root ("src") ∈ (create_folder_structure root demoStructure cbs fs).dirs ∧
      (create_folder_structure root demoStructure cbs fs).fileContent
        (pathJoin (pathJoin root ("src")) ("main.py")) = some "" ∧
      (create_folder_structure root demoStructure cbs fs).fileContent
        (pathJoin root ("README.md")) = some "") ∧
    (∀ (cur : String) (st : PyEntries) (cbs : List (String × String)) (fs : FS)
        (p : String) (v : PyVal), (p, v) ∈ structNodes cur st →
      (v = .atom → (create_folders_and_files cur st cbs fs).fileContent p = some "") ∧
      (∀ sub, v = .dict sub →
        p ∈ (create_folders_and_files cur st cbs fs).dirs)) := by
  constructor
  · intro root cbs fs
    have hfs : create_folder_structure root demoStructure cbs fs =
        (((fs.mkdirs root).mkdirs (pathJoin root ("src"))).writeEmpty
          (pathJoin (pathJoin root ("src")) ("main.py"))).writeEmpty
          (pathJoin root ("README.md")) := rfl
    rw [hfs]
    refine ⟨?_, ?_, ?_, ?_⟩
    · show root ∈ ((fs.mkdirs root).mkdirs (pathJoin root ("src"))).dirs
      exact mkdirs_dirs_mono _ _ _ (self_mem_mkdirs fs root)
    · show pathJoin root ("src") ∈ ((fs.mkdirs root).mkdirs (pathJoin root ("src"))).dirs
      exact self_mem_mkdirs _ _
    · refine writeEmpty_fileContent_empty _ _ _ ?_
      · exact writeEmpty_fileContent_self _ _
    · exact writeEmpty_fileContent_self _ _
  · intro cur st cbs fs p v hmem
    exact cfaf_nodes_aux (entriesSize st) st (le_refl _) cur cbs fs p v hmem

/-- A file system in which `r/src/main.py` already exists with content. -/
def demoInitFS : FS :=
  ⟨[], [(pathJoin (pathJoin ("r") ("src")) ("main.py"), "old content")]⟩

/-- Witness for `materializer_tree` at a concrete root and a file system
holding pre-existing content at `r/src/main.py`. -/
theorem materializer_tree_witness :
    demoInitFS.fileContent (pathJoin (pathJoin ("r") ("src")) ("main.py")) =
      some ("old content") ∧
    (create_folder_structure ("r") demoStructure [] demoInitFS).fileContent
      (pathJoin (pathJoin ("r") ("src")) ("main.py")) = some "" ∧
    (pathJoin ("r") ("src"),
      PyVal.dict (PyEntries.cons ("main.py") PyVal.atom PyEntries.nil)) ∈
      structNodes ("r") demoStructure ∧
    pathJoin ("r") ("src") ∈ (create_folders_and_files ("r") demoStructure [] demoInitFS).dirs := by
  refine ⟨by decide, ?_, by decide, ?_⟩
  · exact (materializer_tree.1 ("r") [] demoInitFS).2.2.1
  · exact (materializer_tree.2 ("r") demoStructure [] demoInitFS
      (pathJoin ("r") ("src"))
      (PyVal.dict (PyEntries.cons ("main.py") PyVal.atom PyEntries.nil)) (by decide)).2 _ rfl

/-- Claim C8: when the `<folder_structure>` block of the refined output
holds malformed JSON (`json.loads` fails), the run tail completes with
no error: the FolderStructure degrades to the empty tree, the
materializer creates only the project root directory, the JSON parse
error is logged, and the exchange log is still written. -/
theorem malformed_json_degrades :
    ∀ (penv : ParseEnv) (project_directory objective : String)
      (exch : List (String × String)) (text js : String) (fs : FS),
      folderBlock text = some js →
      penv.jsonParse (pyStrip js) = none →
      post_refine penv project_directory objective exch (some text) fs =
        Except.ok
          ⟨(fs.mkdirs project_directory).writeFile
              (logFileName penv project_directory objective)
              (exchangeLogText objective exch text),
            exchangeLogText objective exch text,
            (match projectNameGroup text with | some s => pyStrip s | none => project_directory),
            true⟩ := by
  intro penv project_directory objective exch text js fs hfb hjson
  simp only [post_refine, hfb, hjson]
  rfl

/-- Parse environment whose `json.loads` always fails. -/
def jsonFailParseEnv : ParseEnv := ⟨fun _ => none, fun _ => [], "20240101_000000"⟩

/-- A refined output whose `<folder_structure>` block is malformed. -/
def malformedText : String :=
  "Project Name: Demo\n<folder_structure> not json </folder_structure>done"

/-- Witness for `malformed_json_degrades` at a concrete refined output. -/
theorem malformed_json_degrades_witness :
    folderBlock malformedText = some (" not json ") ∧
    jsonFailParseEnv.jsonParse (pyStrip (" not json ")) = none ∧
    post_refine jsonFailParseEnv ("proj") ("obj") [] (some malformedText) ⟨[], []⟩ =
      Except.ok
        ⟨((⟨[], []⟩ : FS).mkdirs ("proj")).writeFile
            (logFileName jsonFailParseEnv ("proj") ("obj"))
            (exchangeLogText ("obj") [] malformedText),
          exchangeLogText ("obj") [] malformedText,
          (match projectNameGroup malformedText with | some s => pyStrip s | none => "proj"),
          true⟩ := by
  refine ⟨by decide, rfl, ?_⟩
  exact malformed_json_degrades jsonFailParseEnv ("proj") ("obj") [] malformedText
    (" not json ") ⟨[], []⟩ (by decide) rfl

/-- Oracles of a run whose refiner fails twice: the orchestrator keeps
producing sub-tasks and the refinement judge keeps scoring below 8. -/
def crashWitnessEnv : MainEnv :=
  { orchOut := fun _ => "keep working"
    subOut := fun _ => "partial result"
    refineEnv := ⟨fun _ => "draft", fun _ => "Rating: 2"⟩
    parseEnv := ⟨fun _ => none, fun _ => [], "20240101_000000"⟩ }

/-- Witness for `refiner_none_crashes_run` at a concrete run. -/
theorem refiner_none_crashes_run_witness :
    main_logic_core crashWitnessEnv ("obj") ("proj") ⟨[], []⟩ =
      Except.error PyError.typeError :=
  refiner_none_crashes_run crashWitnessEnv ("obj") ("proj") ⟨[], []⟩ (by decide)

end Grug
